import Mathlib

/-!
Shallow embedding of the recommendation engine in src/banking_recommender.py.

Modelling conventions, traced to the library code the source calls:

* A transaction record keeps only the fields the engine reads:
  customer_ID, product_used and transaction_amount (the amount is only
  counted, never summed, because the pivot uses aggfunc="count").
* pandas pivot_table(index="customer_ID", columns="product_used",
  values="transaction_amount", aggfunc="count", fill_value=0) groups with
  sort=True, so the matrix index and columns are the ascending-sorted
  distinct customer ids and product names, and each cell is the number of
  records with that (customer, product) pair.  On a frame with zero rows it
  returns an empty frame (empty index and columns), raising nothing.
* pandas Series.sort_values(ascending=False) computes an ascending argsort
  of the values and reverses it (pandas.core.sorting.nargsort).  The default
  kind is quicksort, whose tie order is unspecified; numpy falls back to a
  stable insertion sort on small arrays, so for all short inputs considered
  here the result is the reverse of a stable ascending sort.  We model it as
  (stable insertion sort ascending by key).reverse, hence equal-key ties
  appear in reversed pre-sort order.
* Series.value_counts collects the distinct values with their counts (keys
  modelled in order of first appearance, as pandas factorization does) and
  then sorts counts descending with the same sort model.
* sklearn cosine_similarity ranks customers by
  dot(t,c) / (norm(t) * norm(c)).  All entries are non-negative counts, so
  the similarities are non-negative and their ordering (for a fixed target
  t) is the ordering of the exact fraction dot(t,c)^2 / dot(c,c): the
  constant factor dot(t,t) cancels and squaring is monotone on the
  non-negative similarities.  We compare these fractions exactly by cross
  multiplication over naturals (simLe below), treating a zero row as having
  similarity 0, as sklearn does (a zero vector stays zero under
  normalization).  This matches the float computation up to rounding.  Rows
  of a built matrix are never zero anyway, since every row customer has at
  least one record.
* Python exceptions are modelled by Option: get_recommendations touches
  self.customer_product_matrix.index, which fails (AttributeError) when no
  dataset was loaded, so the top-level function returns none in that case.
  For a loaded dataset every operation in the body is total, so the
  except-branches in _collaborative_filtering and
  _cold_start_recommendations are unreachable; the static-catalog branch of
  _cold_start_recommendations corresponds to the unloaded state (where
  self.transaction_data is None and subscripting it raises TypeError).
-/

namespace BankingRec

/-- One row of the uploaded CSV, restricted to the fields the engine reads. -/
structure Record where
  customer_ID : String
  product_used : String
  transaction_amount : Nat
deriving DecidableEq

/-- The static catalog BANKING_PRODUCTS (name, description, category). -/
structure ProductEntry where
  name : String
  description : String
  category : String
deriving DecidableEq

/-- BANKING_PRODUCTS from src/banking_recommender.py lines 7-58, in declared order. -/
def BANKING_PRODUCTS : List ProductEntry :=
  [⟨"basic_checking_account", "A no-frills checking account with low fees.", "account"⟩,
   ⟨"premium_checking_account",
    "A high-tier checking account with benefits like cashback and no ATM fees.", "account"⟩,
   ⟨"savings_account", "A standard savings account with competitive interest rates.", "account"⟩,
   ⟨"high_yield_savings_account",
    "A savings account with higher interest rates for larger balances.", "account"⟩,
   ⟨"credit_card", "A standard credit card with rewards on everyday purchases.", "credit"⟩,
   ⟨"platinum_credit_card",
    "A premium credit card with travel rewards and concierge services.", "credit"⟩,
   ⟨"personal_loan", "A loan for personal expenses with flexible repayment terms.", "loan"⟩,
   ⟨"low_interest_loan", "A loan with lower interest rates for qualified customers.", "loan"⟩,
   ⟨"investment_account",
    "An account for investing in stocks, bonds, and mutual funds.", "investment"⟩,
   ⟨"retirement_account", "A tax-advantaged account for retirement savings.", "investment"⟩]

/-- The list comprehension [product["name"] for product in BANKING_PRODUCTS]. -/
def bankingProductNames : List String :=
  BANKING_PRODUCTS.map ProductEntry.name

/-- Distinct elements of a list in order of first appearance (pandas key order). -/
def firstDedup : List String → List String
  | [] => []
  | a :: l => a :: (firstDedup l).filter (fun b => !(b == a))

/-- Number of records of customer c that used product p: the matrix cell produced by
pivot_table with aggfunc="count". -/
def cellCount (rs : List Record) (c p : String) : Nat :=
  rs.countP (fun r => r.customer_ID == c && r.product_used == p)

/-- Total number of records that used product p (value_counts over product_used). -/
def countProd (rs : List Record) (p : String) : Nat :=
  rs.countP (fun r => r.product_used == p)

/-- Lexicographic comparison of character lists by Unicode code point, the order
Python uses on str and pandas uses to sort the grouped labels. -/
def chLeB : List Char → List Char → Bool
  | [], _ => true
  | _ :: _, [] => false
  | a :: as, b :: bs =>
    if a.toNat < b.toNat then true
    else if b.toNat < a.toNat then false
    else chLeB as bs

/-- Lexicographic order on strings by Unicode code point. -/
def strLe (a b : String) : Prop :=
  chLeB a.data b.data = true

instance strLeDecidable : DecidableRel strLe :=
  fun a b => inferInstanceAs (Decidable (chLeB a.data b.data = true))

/-- Ascending lexicographic sort, as pandas pivot_table (sort=True) applies to the
grouped labels. -/
def sortedStr (l : List String) : List String :=
  List.insertionSort strLe l

/-- The customer times product count matrix returned by pivot_table: sorted distinct
customer ids as index, sorted distinct product names as columns, counts as cells. -/
structure UsageMatrix where
  rows : List String
  cols : List String
  cells : List (List Nat)
deriving DecidableEq

/-- BankingRecommendationSystem._preprocess_data (lines 99-106). -/
def preprocessData (rs : List Record) : UsageMatrix :=
  let rows := sortedStr (firstDedup (rs.map Record.customer_ID))
  let cols := sortedStr (firstDedup (rs.map Record.product_used))
  ⟨rows, cols, rows.map (fun c => cols.map (fun p => cellCount rs c p))⟩

/-- The row vector of customer c over the given column labels. -/
def rowVec (rs : List Record) (cols : List String) (c : String) : List Nat :=
  cols.map (fun p => cellCount rs c p)

/-- Dot product of two count vectors. -/
def dotp (u v : List Nat) : Nat :=
  (List.zipWith (fun a b => a * b) u v).sum

/-- Numerator of the exact similarity fraction of customer c to target t:
dot(t,c)^2, forced to 0 for a zero row (where sklearn defines the similarity
as 0; for a zero row dot(t,c) is 0 anyway). -/
def simNum (rs : List Record) (cols : List String) (t c : String) : Nat :=
  if dotp (rowVec rs cols c) (rowVec rs cols c) = 0 then 0
  else dotp (rowVec rs cols t) (rowVec rs cols c) ^ 2

/-- Denominator of the exact similarity fraction of customer c: dot(c,c), forced
to 1 for a zero row so that the fraction is the defined similarity 0. -/
def simDen (rs : List Record) (cols : List String) (c : String) : Nat :=
  if dotp (rowVec rs cols c) (rowVec rs cols c) = 0 then 1
  else dotp (rowVec rs cols c) (rowVec rs cols c)

/-- Exact comparison of the cosine similarities of a and b to the target t, by
cross multiplication of the similarity fractions (denominators are positive). -/
def simLe (rs : List Record) (cols : List String) (t a b : String) : Prop :=
  simNum rs cols t a * simDen rs cols b ≤ simNum rs cols t b * simDen rs cols a

instance simLeDecidable (rs : List Record) (cols : List String) (t : String) :
    DecidableRel (simLe rs cols t) :=
  fun a b => inferInstanceAs
    (Decidable (simNum rs cols t a * simDen rs cols b ≤ simNum rs cols t b * simDen rs cols a))

/-- Series.sort_values(ascending=False) as modelled above: stable ascending
insertion sort by the given relation, then reverse. -/
def descByRel {α : Type} (le : α → α → Prop) [DecidableRel le] (l : List α) : List α :=
  (List.insertionSort le l).reverse

instance keyLeDecidable {α β : Type} [LinearOrder β] (key : α → β) :
    DecidableRel (fun a b : α => key a ≤ key b) :=
  fun a b => inferInstanceAs (Decidable (key a ≤ key b))

/-- Series.sort_values(ascending=False) for a numeric key. -/
def descBy {α : Type} {β : Type} [LinearOrder β] (key : α → β) (l : List α) : List α :=
  descByRel (fun a b : α => key a ≤ key b) l

/-- similarity_df[customer_id].sort_values(ascending=False).index[1:6]
(lines 132-135): positions 1 through 5 of the descending-similarity ordering of
all matrix rows, the target row included in the pool. -/
def similarCustomers (rs : List Record) (cid : String) : List String :=
  let m := preprocessData rs
  ((descByRel (simLe rs m.cols cid) m.rows).drop 1).take 5

/-- Column-wise sum of the usage rows of the given customers (matrix.loc[peers].sum()). -/
def peerSum (rs : List Record) (peers : List String) (p : String) : Nat :=
  (peers.map (fun c => cellCount rs c p)).sum

/-- BankingRecommendationSystem._collaborative_filtering (lines 121-158), for a
loaded dataset.  The except-branch (line 160-162) is unreachable in the model
because every step is total once data is loaded. -/
def collabFiltering (rs : List Record) (cid : String) (n : Nat) : List String :=
  let m := preprocessData rs
  let peers := similarCustomers rs cid
  let ranked := descBy (fun p => peerSum rs peers p) m.cols
  (ranked.filter (fun p => cellCount rs cid p == 0)).take n

/-- BankingRecommendationSystem._cold_start_recommendations (lines 164-173) for a
loaded dataset: list(transaction_data["product_used"].value_counts().index[:top_n]). -/
def coldStartL (rs : List Record) (n : Nat) : List String :=
  (descBy (fun p => countProd rs p) (firstDedup (rs.map Record.product_used))).take n

/-- BankingRecommendationSystem._cold_start_recommendations including the except
branch: when no dataset is loaded, transaction_data is None, subscripting it raises
TypeError and the handler returns the catalog names truncated to top_n. -/
def coldStart : Option (List Record) → Nat → List String
  | none, n => bankingProductNames.take n
  | some rs, n => coldStartL rs n

/-- BankingRecommendationSystem.get_recommendations (lines 108-119) for a loaded
dataset.  The generator at line 115 appends the popular products not already in
the list; since value_counts keys are distinct, checking against the mutating
list equals checking against the pre-padding list. -/
def getRecsL (rs : List Record) (cid : String) (n : Nat) : List String :=
  let m := preprocessData rs
  if cid ∈ m.rows then
    let recs := collabFiltering rs cid n
    if recs.length < n then
      (recs ++ (coldStartL rs n).filter (fun p => decide (p ∉ recs))).take n
    else recs
  else coldStartL rs n

/-- BankingRecommendationSystem.get_recommendations including the unloaded state:
with no dataset loaded, customer_product_matrix is None and accessing its index
raises AttributeError, modelled as none. -/
def getRecommendations : Option (List Record) → String → Nat → Option (List String)
  | none, _, _ => none
  | some rs, cid, n => some (getRecsL rs cid n)

/-! Order-theoretic facts about the lexicographic string order. -/

theorem chLeB_cons_iff {a b : Char} {as bs : List Char} :
    chLeB (a :: as) (b :: bs) = true ↔
      a.toNat < b.toNat ∨ (a.toNat = b.toNat ∧ chLeB as bs = true) := by
  by_cases h1 : a.toNat < b.toNat <;> by_cases h2 : b.toNat < a.toNat <;>
    simp [chLeB, h1, h2] <;> omega

theorem chLeB_total : ∀ as bs : List Char, chLeB as bs = true ∨ chLeB bs as = true
  | [], _ => Or.inl rfl
  | _ :: _, [] => Or.inr rfl
  | a :: as, b :: bs => by
    rcases Nat.lt_trichotomy a.toNat b.toNat with h | h | h
    · exact Or.inl (chLeB_cons_iff.mpr (Or.inl h))
    · rcases chLeB_total as bs with hr | hr
      · exact Or.inl (chLeB_cons_iff.mpr (Or.inr ⟨h, hr⟩))
      · exact Or.inr (chLeB_cons_iff.mpr (Or.inr ⟨h.symm, hr⟩))
    · exact Or.inr (chLeB_cons_iff.mpr (Or.inl h))

theorem chLeB_trans : ∀ as bs cs : List Char,
    chLeB as bs = true → chLeB bs cs = true → chLeB as cs = true
  | [], _, _, _, _ => rfl
  | _ :: _, [], _, h, _ => absurd h (by simp [chLeB])
  | _ :: _, _ :: _, [], _, h => absurd h (by simp [chLeB])
  | a :: as, b :: bs, c :: cs, h1, h2 => by
    rcases chLeB_cons_iff.mp h1 with hab | ⟨hab, hr1⟩ <;>
      rcases chLeB_cons_iff.mp h2 with hbc | ⟨hbc, hr2⟩
    · exact chLeB_cons_iff.mpr (Or.inl (hab.trans hbc))
    · exact chLeB_cons_iff.mpr (Or.inl (hbc ▸ hab))
    · exact chLeB_cons_iff.mpr (Or.inl (hab ▸ hbc))
    · exact chLeB_cons_iff.mpr (Or.inr ⟨hab.trans hbc, chLeB_trans as bs cs hr1 hr2⟩)

theorem chLeB_antisymm : ∀ as bs : List Char,
    chLeB as bs = true → chLeB bs as = true → as = bs
  | [], [], _, _ => rfl
  | [], _ :: _, _, h => absurd h (by simp [chLeB])
  | _ :: _, [], h, _ => absurd h (by simp [chLeB])
  | a :: as, b :: bs, h1, h2 => by
    rcases chLeB_cons_iff.mp h1 with hab | ⟨hab, hr1⟩ <;>
      rcases chLeB_cons_iff.mp h2 with hba | ⟨hba, hr2⟩ <;> try omega
    have hc : a = b := Char.ext (UInt32.ext hab)
    rw [hc, chLeB_antisymm as bs hr1 hr2]

instance strLeIsTotal : IsTotal String strLe :=
  ⟨fun a b => chLeB_total a.data b.data⟩

instance strLeIsTrans : IsTrans String strLe :=
  ⟨fun a b c => chLeB_trans a.data b.data c.data⟩

instance strLeIsAntisymm : IsAntisymm String strLe :=
  ⟨fun a b h1 h2 => String.ext (chLeB_antisymm a.data b.data h1 h2)⟩

/-! Facts about firstDedup and the sorting helpers. -/

theorem mem_firstDedup {a : String} : ∀ {l : List String}, a ∈ firstDedup l ↔ a ∈ l
  | [] => Iff.rfl
  | b :: l => by
    by_cases hab : a = b
    · subst hab
      simp [firstDedup]
    · simp [firstDedup, List.mem_filter, hab, mem_firstDedup (l := l)]

theorem nodup_firstDedup : ∀ l : List String, (firstDedup l).Nodup
  | [] => List.nodup_nil
  | a :: l => by
    refine List.nodup_cons.mpr ⟨?_, (nodup_firstDedup l).filter _⟩
    simp [List.mem_filter]

theorem firstDedup_perm {l l' : List String} (h : List.Perm l l') :
    List.Perm (firstDedup l) (firstDedup l') :=
  (List.perm_ext_iff_of_nodup (nodup_firstDedup l) (nodup_firstDedup l')).mpr
    (fun a => by simp [mem_firstDedup, h.mem_iff])

theorem sortedStr_perm (l : List String) : List.Perm (sortedStr l) l :=
  List.perm_insertionSort _ _

theorem sortedStr_sorted (l : List String) : (sortedStr l).Sorted strLe :=
  List.sorted_insertionSort _ _

theorem sortedStr_eq_of_perm {l l' : List String} (h : List.Perm l l') :
    sortedStr l = sortedStr l' :=
  List.eq_of_perm_of_sorted ((sortedStr_perm l).trans (h.trans (sortedStr_perm l').symm))
    (sortedStr_sorted l) (sortedStr_sorted l')

theorem descByRel_perm {α : Type} (le : α → α → Prop) [DecidableRel le] (l : List α) :
    List.Perm (descByRel le l) l :=
  (List.reverse_perm _).trans (List.perm_insertionSort _ _)

theorem descByRel_nodup {α : Type} (le : α → α → Prop) [DecidableRel le] {l : List α}
    (h : l.Nodup) : (descByRel le l).Nodup :=
  (descByRel_perm le l).symm.nodup h

theorem descByRel_sorted {α : Type} (le : α → α → Prop) [DecidableRel le]
    [IsTotal α le] [IsTrans α le] (l : List α) :
    (descByRel le l).Pairwise (fun a b => le b a) :=
  List.pairwise_reverse.mpr (List.sorted_insertionSort le l)

theorem descBy_perm {α β : Type} [LinearOrder β] (key : α → β) (l : List α) :
    List.Perm (descBy key l) l :=
  descByRel_perm _ l

theorem descBy_nodup {α β : Type} [LinearOrder β] (key : α → β) {l : List α}
    (h : l.Nodup) : (descBy key l).Nodup :=
  descByRel_nodup _ h

theorem descBy_sorted {α β : Type} [LinearOrder β] (key : α → β) (l : List α) :
    (descBy key l).Pairwise (fun a b => key b ≤ key a) := by
  haveI : IsTotal α (fun a b : α => key a ≤ key b) := ⟨fun a b => le_total (key a) (key b)⟩
  haveI : IsTrans α (fun a b : α => key a ≤ key b) := ⟨fun _ _ _ h1 h2 => le_trans h1 h2⟩
  exact descByRel_sorted _ l

/-! Facts about the similarity comparison. -/

theorem simDen_pos (rs : List Record) (cols : List String) (c : String) :
    0 < simDen rs cols c := by
  unfold simDen
  split
  · exact Nat.one_pos
  · exact Nat.pos_of_ne_zero (by assumption)

theorem simLe_total (rs : List Record) (cols : List String) (t : String) :
    ∀ a b, simLe rs cols t a b ∨ simLe rs cols t b a :=
  fun _ _ => Nat.le_total _ _

theorem simLe_trans (rs : List Record) (cols : List String) (t : String) :
    ∀ a b c, simLe rs cols t a b → simLe rs cols t b c → simLe rs cols t a c := by
  intro a b c h1 h2
  unfold simLe at h1 h2 ⊢
  set xa := simNum rs cols t a
  set xb := simNum rs cols t b
  set xc := simNum rs cols t c
  set ya := simDen rs cols a
  set yb := simDen rs cols b
  set yc := simDen rs cols c
  have hyb : 0 < yb := simDen_pos rs cols b
  have k1 : xa * yb * yc ≤ xb * ya * yc := Nat.mul_le_mul_right yc h1
  have k2 : xb * yc * ya ≤ xc * yb * ya := Nat.mul_le_mul_right ya h2
  have k3 : yb * (xa * yc) ≤ yb * (xc * ya) := by
    calc yb * (xa * yc) = xa * yb * yc := by ring
    _ ≤ xb * ya * yc := k1
    _ = xb * yc * ya := by ring
    _ ≤ xc * yb * ya := k2
    _ = yb * (xc * ya) := by ring
  exact Nat.le_of_mul_le_mul_left k3 hyb

/-! Facts about the built matrix and the ranking functions. -/

theorem rows_nodup (rs : List Record) : (preprocessData rs).rows.Nodup :=
  (sortedStr_perm _).symm.nodup (nodup_firstDedup _)

theorem cols_nodup (rs : List Record) : (preprocessData rs).cols.Nodup :=
  (sortedStr_perm _).symm.nodup (nodup_firstDedup _)

theorem collabFiltering_nodup (rs : List Record) (cid : String) (n : Nat) :
    (collabFiltering rs cid n).Nodup := by
  simp only [collabFiltering]
  exact ((descByRel_nodup _ (cols_nodup rs)).filter _).sublist (List.take_sublist _ _)

theorem collabFiltering_length_le (rs : List Record) (cid : String) (n : Nat) :
    (collabFiltering rs cid n).length ≤ n := by
  simp only [collabFiltering]
  exact List.length_take_le _ _

theorem coldStartL_nodup (rs : List Record) (n : Nat) : (coldStartL rs n).Nodup := by
  simp only [coldStartL]
  exact (descByRel_nodup _ (nodup_firstDedup _)).sublist (List.take_sublist _ _)

theorem coldStartL_length_le (rs : List Record) (n : Nat) : (coldStartL rs n).length ≤ n := by
  simp only [coldStartL]
  exact List.length_take_le _ _

/-- The two branches of get_recommendations for a known customer collapse to a single
merge formula: the collaborative result, padded with the fallback entries not already
present, truncated to top_n.  When collaborative filtering already returned top_n
entries the padding is the identity, because the collaborative list is truncated to
top_n itself. -/
theorem getRecsL_eq_of_mem (rs : List Record) (cid : String) (n : Nat)
    (h : cid ∈ (preprocessData rs).rows) :
    getRecsL rs cid n =
      (collabFiltering rs cid n ++
        (coldStartL rs n).filter (fun p => decide (p ∉ collabFiltering rs cid n))).take n := by
  simp only [getRecsL]
  rw [if_pos h]
  by_cases hl : (collabFiltering rs cid n).length < n
  · rw [if_pos hl]
  · rw [if_neg hl]
    have hlen : (collabFiltering rs cid n).length = n :=
      Nat.le_antisymm (collabFiltering_length_le rs cid n) (Nat.le_of_not_lt hl)
    exact (List.take_left' hlen).symm

theorem getRecsL_eq_of_not_mem (rs : List Record) (cid : String) (n : Nat)
    (h : cid ∉ (preprocessData rs).rows) :
    getRecsL rs cid n = coldStartL rs n := by
  simp only [getRecsL]
  rw [if_neg h]

/-- In a reversed stable sort the head is a maximum, so an element strictly above
every other never survives into positions 1 and beyond. -/
theorem not_mem_drop_one_of_strict_max {α : Type} (le : α → α → Prop) [DecidableRel le]
    [IsTotal α le] [IsTrans α le] {l : List α} {x : α} (hnd : l.Nodup)
    (hmax : ∀ b ∈ l, b ≠ x → ¬ le x b) :
    x ∉ (descByRel le l).drop 1 := by
  intro hin
  have hperm := descByRel_perm le l
  have hnd' : (descByRel le l).Nodup := descByRel_nodup le hnd
  have hsorted := descByRel_sorted le l
  cases hseq : descByRel le l with
  | nil => rw [hseq] at hin; simp at hin
  | cons hd tl =>
    rw [hseq] at hin hnd' hsorted hperm
    have hin2 : x ∈ tl := by simpa using hin
    by_cases hhd : hd = x
    · subst hhd
      exact (List.nodup_cons.mp hnd').1 hin2
    · have hhdl : hd ∈ l := hperm.subset (List.mem_cons_self hd tl)
      have hle : le x hd := List.rel_of_pairwise_cons hsorted hin2
      exact hmax hd hhdl hhd hle

/-! Concrete datasets used as counterexamples and witnesses. -/

/-- A dataset with a single customer who used a single product. -/
def rsSingle : List Record := [⟨"c1", "p1", 100⟩]

/-- Customers a and b with identical usage direction (cosine similarity 1 to each
other and to themselves) and customer c orthogonal to them. -/
def rsTie : List Record := [⟨"a", "p", 1⟩, ⟨"b", "p", 1⟩, ⟨"c", "q", 1⟩]

/-- Two customers with disjoint product usage. -/
def rsPair : List Record := [⟨"a", "p", 1⟩, ⟨"b", "q", 1⟩]

/-- One customer with two products, each used once: an equal-count tie between
product names a and b, with a appearing first in the data. -/
def rsTieProd : List Record := [⟨"c1", "a", 1⟩, ⟨"c1", "b", 1⟩]

/-- A small dataset and a permutation of it. -/
def rsPermA : List Record := [⟨"a", "p", 1⟩, ⟨"b", "q", 2⟩, ⟨"a", "q", 3⟩]

/-- The same records as rsPermA in a different arrival order. -/
def rsPermB : List Record := [⟨"a", "q", 3⟩, ⟨"a", "p", 1⟩, ⟨"b", "q", 2⟩]

/-! Claim C1. -/

/-- C1 counterexample: for the dataset with a single customer who used a single
product, get_recommendations returns that already-used product, not the empty
list: the padding at line 115 filters only on membership in the result, not on
the customer already using the product. -/
theorem c1_counterexample :
    getRecsL rsSingle "c1" 3 = ["p1"] ∧ getRecsL rsSingle "c1" 3 ≠ [] ∧
      0 < cellCount rsSingle "c1" "p1" := by decide

/-- C1 amended: for a customer present in the matrix, the result is the
collaborative list padded with exactly the fallback entries that are not already
in the result (in fallback order) and truncated to top_n; entries already used by
the customer are not excluded from the padding. -/
theorem c1_padding_merge (rs : List Record) (cid : String) (n : Nat)
    (h : cid ∈ (preprocessData rs).rows) :
    getRecsL rs cid n =
      (collabFiltering rs cid n ++
        (coldStartL rs n).filter (fun p => decide (p ∉ collabFiltering rs cid n))).take n :=
  getRecsL_eq_of_mem rs cid n h

/-- Witness for c1_padding_merge at the single-customer dataset. -/
theorem c1_padding_merge_witness :
    "c1" ∈ (preprocessData rsSingle).rows ∧
      getRecsL rsSingle "c1" 3 =
        (collabFiltering rsSingle "c1" 3 ++
          (coldStartL rsSingle 3).filter
            (fun p => decide (p ∉ collabFiltering rsSingle "c1" 3))).take 3 :=
  ⟨by decide, c1_padding_merge rsSingle "c1" 3 (by decide)⟩

/-! Claim C2. -/

/-- C2: for a customer id absent from the usage matrix, get_recommendations
returns exactly the popularity ranking of the loaded dataset truncated to top_n. -/
theorem c2_unknown_customer_fallback (rs : List Record) (cid : String) (n : Nat)
    (h : cid ∉ (preprocessData rs).rows) :
    getRecsL rs cid n = coldStartL rs n :=
  getRecsL_eq_of_not_mem rs cid n h

/-- Witness for c2_unknown_customer_fallback at a concrete unknown id. -/
theorem c2_unknown_customer_fallback_witness :
    "zz" ∉ (preprocessData rsSingle).rows ∧ getRecsL rsSingle "zz" 2 = coldStartL rsSingle 2 :=
  ⟨by decide, c2_unknown_customer_fallback rsSingle "zz" 2 (by decide)⟩

/-! Claim C3. -/

/-- C3 counterexample: matrix construction on a store with zero records does not
fail at all, let alone with a dedicated EmptyDatasetError (no such error exists
in the code): it returns the empty matrix, after which every customer is routed
to the popularity fallback, which yields the empty list, not the static
catalog. -/
theorem c3_counterexample :
    preprocessData [] = ⟨[], [], []⟩ ∧ getRecsL [] "x" 3 = [] ∧
      bankingProductNames.take 3 ≠ [] := by decide

/-- C3 amended: matrix construction is total and maps zero records to the empty
matrix; with an empty loaded dataset every customer takes the fallback path, and
the static catalog is returned only by the fallback handler for the unloaded
state (transaction data absent), not through matrix construction. -/
theorem c3_amended_no_error (cid : String) (n : Nat) :
    preprocessData [] = ⟨[], [], []⟩ ∧ getRecsL [] cid n = coldStartL [] n ∧
      coldStart none n = bankingProductNames.take n :=
  ⟨rfl, getRecsL_eq_of_not_mem [] cid n (List.not_mem_nil cid), rfl⟩

/-! Claim C4. -/

/-- C4 counterexample: with customers a, b colinear (similarity 1) and c
orthogonal, the peer list for target a is [a, c]: it contains the target itself
and misses b, so it is not the 5 most similar customers excluding the target,
and the tie between a and b at similarity 1 is not resolved by ascending
customer id (which would put b first among the peers). -/
theorem c4_counterexample :
    "a" ∈ similarCustomers rsTie "a" ∧ similarCustomers rsTie "a" = ["a", "c"] := by decide

/-- C4 amended: the peer list is positions 1 through 5 of the descending
similarity ordering of all matrix rows, the target included in the pool, with
ties in the order the reversed stable sort leaves them; the target is excluded
exactly when it sorts first, which is guaranteed when its similarity is strictly
greater than that of every other customer. -/
theorem c4_strict_max_excluded (rs : List Record) (cid : String)
    (hmem : cid ∈ (preprocessData rs).rows)
    (hmax : ∀ b ∈ (preprocessData rs).rows, b ≠ cid →
      ¬ simLe rs (preprocessData rs).cols cid cid b) :
    cid ∉ similarCustomers rs cid := by
  haveI : IsTotal String (simLe rs (preprocessData rs).cols cid) :=
    ⟨simLe_total rs (preprocessData rs).cols cid⟩
  haveI : IsTrans String (simLe rs (preprocessData rs).cols cid) :=
    ⟨simLe_trans rs (preprocessData rs).cols cid⟩
  simp only [similarCustomers]
  intro hin
  exact not_mem_drop_one_of_strict_max _ (rows_nodup rs) hmax (List.mem_of_mem_take hin)

/-- Witness for c4_strict_max_excluded: two customers with disjoint usage; the
target has self-similarity 1 and the other customer similarity 0. -/
theorem c4_strict_max_excluded_witness :
    ("a" ∈ (preprocessData rsPair).rows) ∧ "a" ∉ similarCustomers rsPair "a" :=
  ⟨by decide, c4_strict_max_excluded rsPair "a" (by decide) (by decide)⟩

/-! Claim C5. -/

/-- C5 counterexample: for a loaded dataset with zero records, get_recommendations
returns the empty list, not the head of the static catalog. -/
theorem c5_counterexample :
    getRecommendations (some []) "c" 1 = some [] ∧
      getRecommendations (some []) "c" 1 ≠ some (bankingProductNames.take 1) := by decide

/-- C5 amended: a loaded dataset with zero records yields the empty list for
every customer and top_n; the static catalog prefix is produced only by the
popularity fallback in the unloaded state, and get_recommendations itself fails
on the absent matrix (modelled none) when no dataset was loaded. -/
theorem c5_empty_dataset (cid : String) (n : Nat) :
    getRecommendations (some []) cid n = some [] ∧
      getRecommendations none cid n = none ∧
      coldStart none n = bankingProductNames.take n := by
  refine ⟨?_, rfl, rfl⟩
  show some (getRecsL [] cid n) = some []
  rw [getRecsL_eq_of_not_mem [] cid n (List.not_mem_nil cid)]
  exact congrArg some List.take_nil

/-! Claim C6. -/

/-- C6: building the usage matrix is order independent: permuting the input
records yields the identical matrix (same rows, columns and cell counts). -/
theorem c6_matrix_order_independent (l l' : List Record) (h : List.Perm l l') :
    preprocessData l = preprocessData l' := by
  have hrows : sortedStr (firstDedup (l.map Record.customer_ID)) =
      sortedStr (firstDedup (l'.map Record.customer_ID)) :=
    sortedStr_eq_of_perm (firstDedup_perm (h.map _))
  have hcols : sortedStr (firstDedup (l.map Record.product_used)) =
      sortedStr (firstDedup (l'.map Record.product_used)) :=
    sortedStr_eq_of_perm (firstDedup_perm (h.map _))
  have hcell : cellCount l = cellCount l' := by
    funext c p
    exact h.countP_eq _
  simp only [preprocessData]
  rw [hrows, hcols, hcell]

/-- Witness for c6_matrix_order_independent on a concrete permutation. -/
theorem c6_matrix_order_independent_witness :
    List.Perm rsPermA rsPermB ∧ preprocessData rsPermA = preprocessData rsPermB :=
  ⟨by decide, c6_matrix_order_independent rsPermA rsPermB (by decide)⟩

/-! Claim C7. -/

/-- C7: for every loaded dataset and customer, the engine is total (every
operation in the model is a function) and top_n = 0 yields the empty result on
both the collaborative and the fallback path. -/
theorem c7_top_n_zero (rs : List Record) (cid : String) : getRecsL rs cid 0 = [] := by
  by_cases h : cid ∈ (preprocessData rs).rows
  · rw [getRecsL_eq_of_mem rs cid 0 h]
    exact List.take_zero _
  · rw [getRecsL_eq_of_not_mem rs cid 0 h]
    simp only [coldStartL]
    exact List.take_zero _

/-! Claim C8. -/

/-- C8 counterexample: products a and b are tied with one transaction each, a
appears first in the data, and the popularity ranking returns [b, a]: the tie is
not broken by ascending product name (which would give [a, b]); it is the
artifact of the reversed stable sort. -/
theorem c8_counterexample :
    coldStartL rsTieProd 2 = ["b", "a"] ∧
      countProd rsTieProd "a" = countProd rsTieProd "b" ∧
      coldStartL rsTieProd 2 ≠ ["a", "b"] := by decide

/-- C8 amended: the popularity ranking is ordered by total transaction count
descending; equal-count ties appear in the order the reversed stable sort leaves
them (reversed first-appearance order), not by ascending product name. -/
theorem c8_sorted_desc_by_count (rs : List Record) (n : Nat) :
    (coldStartL rs n).Pairwise (fun a b => countProd rs b ≤ countProd rs a) := by
  simp only [coldStartL]
  exact List.Pairwise.sublist (List.take_sublist _ _) (descBy_sorted _ _)

/-! Claim C9. -/

/-- C9: every result of get_recommendations on a loaded dataset has no duplicate
entries and length at most top_n. -/
theorem c9_result_nodup_length (rs : List Record) (cid : String) (n : Nat) :
    (getRecsL rs cid n).Nodup ∧ (getRecsL rs cid n).length ≤ n := by
  by_cases h : cid ∈ (preprocessData rs).rows
  · rw [getRecsL_eq_of_mem rs cid n h]
    constructor
    · refine List.Nodup.sublist (List.take_sublist _ _) ?_
      refine List.Nodup.append (collabFiltering_nodup rs cid n)
        ((coldStartL_nodup rs n).filter _) ?_
      intro a ha hafil
      exact (of_decide_eq_true (List.mem_filter.mp hafil).2) ha
    · exact List.length_take_le _ _
  · rw [getRecsL_eq_of_not_mem rs cid n h]
    exact ⟨coldStartL_nodup rs n, coldStartL_length_le rs n⟩

/-! Claim C10. -/

/-- C10: collaborative filtering ranks the entire column set of the matrix
(products with zero summed usage over the peers included), so whenever at least
top_n columns are unused by the target, it returns exactly top_n products. -/
theorem c10_full_column_pool (rs : List Record) (cid : String) (n : Nat)
    (hmem : cid ∈ (preprocessData rs).rows)
    (hcols : n ≤ ((preprocessData rs).cols.filter
      (fun p => cellCount rs cid p == 0)).length) :
    (collabFiltering rs cid n).length = n := by
  simp only [collabFiltering]
  rw [List.length_take]
  have hlen : ((descBy (fun p => peerSum rs (similarCustomers rs cid) p)
        (preprocessData rs).cols).filter (fun p => cellCount rs cid p == 0)).length =
      ((preprocessData rs).cols.filter (fun p => cellCount rs cid p == 0)).length :=
    ((descBy_perm _ _).filter _).length_eq
  rw [hlen]
  exact Nat.min_eq_left hcols

/-- Witness for c10_full_column_pool with one unused column and top_n 1. -/
theorem c10_full_column_pool_witness :
    ("a" ∈ (preprocessData rsPair).rows) ∧
      1 ≤ ((preprocessData rsPair).cols.filter
        (fun p => cellCount rsPair "a" p == 0)).length ∧
      (collabFiltering rsPair "a" 1).length = 1 :=
  ⟨by decide, by decide, c10_full_column_pool rsPair "a" 1 (by decide) (by decide)⟩

end BankingRec
